import Mathlib

/-!
Shallow embedding of the LiveFeedAI captioning service (src/main.py) and the
verification of its specification.

External collaborators (PIL image decoding, the LLaVA inference pipeline,
cv2 video decoding, MD5) are modelled at their interface boundary as fields
of an environment record; everything the repository itself implements
(hashing entry point, the lru_cache-backed description cache and its fill,
the image-processing orchestration, frame extraction, and the HTTP handler
logic) is translated directly from the source.
-/

deriving instance DecidableEq for Except

namespace LiveFeedAI

/-- Raw media bytes (a Python `bytes` value), one natural per byte. -/
abbrev Bytes := List Nat

/-- Abstract decoded RGB pixel grid (a PIL image after convert("RGB")). -/
structure RGBImage where
  pix : List (Nat × Nat × Nat)
deriving DecidableEq, Inhabited

/-- External collaborators used by the image path, at their interface
boundary: MD5 hex digest, PIL decode (an `error` is a raised exception),
the Lanczos resize, and the LLaVA generate-and-decode pipeline. -/
structure Env where
  md5hex : Bytes → String
  openImage : Bytes → Except String RGBImage
  resizeLanczos : RGBImage → RGBImage
  generate : RGBImage → Except String String

/-- Source line 47-50: resize image to LLaVA's expected 336x336 input
(the resampling itself is the external collaborator `resizeLanczos`). -/
def preprocess_image (env : Env) (image : RGBImage) : RGBImage :=
  env.resizeLanczos image

/-- Source line 53-54: `hashlib.md5(image_data).hexdigest()`. -/
def hash_image (env : Env) (image_data : Bytes) : String :=
  env.md5hex image_data

/-- State of the functools.lru_cache attached to get_cached_description:
an association list from hash key to the memoized return value, kept in
recency order, least recently used first. -/
abbrev CacheState := List (String × Option String)

/-- Source line 57: `@lru_cache(maxsize=100)`. -/
def lruMaxsize : Nat := 100

/-- Source lines 58-60: the undecorated body of get_cached_description
always returns None; the decorator memoizes this value per key. -/
def get_cached_description_fn (image_hash : String) : Option String :=
  none

/-- One call to the lru_cache-wrapped get_cached_description, CPython
semantics: on a hit the entry is moved to the most-recent end and its
memoized value returned; on a miss the body is evaluated and the new entry
stored at the most-recent end, evicting the least recently used entry when
the cache already holds `lruMaxsize` entries. -/
def get_cached_description (s : CacheState) (image_hash : String) :
    Option String × CacheState :=
  match s.find? (fun e => e.1 == image_hash) with
  | some e => (e.2, (s.eraseP (fun e => e.1 == image_hash)) ++ [e])
  | none =>
      let v := get_cached_description_fn image_hash
      (v, (if lruMaxsize ≤ s.length then s.drop 1 else s) ++ [(image_hash, v)])

/-- Source line 103: `get_cached_description.cache_parameters()[image_hash]
= description`. CPython's functools returns a fresh dict
{maxsize, typed} from cache_parameters() on every call, so this
subscript-assignment mutates a throwaway dictionary and the lru_cache
itself is left unchanged. -/
def cache_parameters_store (s : CacheState) (image_hash : String)
    (description : String) : CacheState :=
  s

/-- Source lines 80-84: the instruction prompt literal (a Python
triple-quoted string). -/
def prompt : String :=
  "\n        Describe what you see in this image in a single, concise paragraph. \n        Focus on the most important objects, people, actions, and environment.\n        Be specific and accurate rather than general. Limit to 2-3 sentences.\n        "

/-- Fuel-indexed worker for Python str.replace with an empty replacement:
scan left to right, removing each non-overlapping occurrence of the
pattern; fuel equal to the text length suffices. Structural recursion on
the fuel keeps the definition kernel-evaluable. -/
def replaceAllAux (pat : List Char) : Nat → List Char → List Char
  | 0, cs => cs
  | _ + 1, [] => []
  | fuel + 1, c :: rest =>
    if pat ≠ [] ∧ pat.isPrefixOf (c :: rest) then
      replaceAllAux pat fuel (List.drop (pat.length - 1) rest)
    else
      c :: replaceAllAux pat fuel rest

/-- Python `s.replace(pat, "")`: delete every occurrence of pat in s.
(For an empty pattern Python returns s unchanged when the replacement is
empty, which the worker also does.) -/
def pyReplace (s pat : String) : String :=
  String.mk (replaceAllAux pat.data s.data.length s.data)

/-- Python `s.strip()`: drop leading and trailing whitespace. -/
def pyStrip (s : String) : String :=
  String.mk (((s.data.dropWhile Char.isWhitespace).reverse.dropWhile
    Char.isWhitespace).reverse)

/-- Result of one run of the try-block of process_image_data: the value
produced (or the exception message raised), the cache state afterwards,
and an instrumentation counter of how many times model.generate was
invoked. -/
structure ImgStep where
  raw : Except String String
  state : CacheState
  infCalls : Nat

/-- Source lines 75-105: the cache-miss path of process_image_data —
decode with PIL, preprocess, run the LLaVA pipeline, strip the echoed
prompt and surrounding whitespace, then attempt the cache fill (a no-op,
see cache_parameters_store). -/
def process_image_miss (env : Env) (s1 : CacheState) (image_hash : String)
    (image_data : Bytes) : ImgStep :=
  match env.openImage image_data with
  | Except.error m => { raw := Except.error m, state := s1, infCalls := 0 }
  | Except.ok image0 =>
    match env.generate (preprocess_image env image0) with
    | Except.error m => { raw := Except.error m, state := s1, infCalls := 1 }
    | Except.ok output =>
      { raw := Except.ok (pyStrip (pyReplace output prompt)),
        state := cache_parameters_store s1 image_hash
          (pyStrip (pyReplace output prompt)),
        infCalls := 1 }

/-- Source lines 64-105: the try-block of process_image_data. Empty input
raises ValueError("Image data is empty"); otherwise hash, consult the
cache (`if cached_result:` is Python truthiness — None and "" are falsy),
and on a miss run process_image_miss. -/
def process_image_try (env : Env) (s : CacheState) (image_data : Bytes) :
    ImgStep :=
  if image_data.isEmpty then
    { raw := Except.error "Image data is empty", state := s, infCalls := 0 }
  else
    match (get_cached_description s (hash_image env image_data)).1 with
    | some c =>
      if c.data.isEmpty then
        process_image_miss env
          (get_cached_description s (hash_image env image_data)).2
          (hash_image env image_data) image_data
      else
        { raw := Except.ok c,
          state := (get_cached_description s (hash_image env image_data)).2,
          infCalls := 0 }
    | none =>
      process_image_miss env
        (get_cached_description s (hash_image env image_data)).2
        (hash_image env image_data) image_data

/-- Source lines 62-109: process_image_data with its catch-all handler —
any exception raised in the try-block is stringified into the
"Error: Failed to process image - ..." marker, so the function always
returns a string. The third component is the inference-invocation
counter. -/
def process_image_data (env : Env) (s : CacheState) (image_data : Bytes) :
    String × CacheState × Nat :=
  (match (process_image_try env s image_data).raw with
   | Except.ok d => d
   | Except.error m => "Error: Failed to process image - " ++ m,
   (process_image_try env s image_data).state,
   (process_image_try env s image_data).infCalls)

/-- The value process_image_data computes for given bytes, with the cache
left out: reachable cache states only ever hold None values (the body of
get_cached_description returns None and the fill is a no-op), so the
`if cached_result:` test never fires and the produced value does not
depend on the cache state. Proven equal to the instrumented run below. -/
def describeResult (env : Env) (image_data : Bytes) : Except String String :=
  if image_data.isEmpty then Except.error "Image data is empty"
  else
    match env.openImage image_data with
    | Except.error m => Except.error m
    | Except.ok image0 =>
      match env.generate (preprocess_image env image0) with
      | Except.error m => Except.error m
      | Except.ok output => Except.ok (pyStrip (pyReplace output prompt))

/-- Number of model.generate invocations one process_image_data call
performs on the given bytes (from any all-None cache state): one whenever
PIL decoding succeeds, zero otherwise. -/
def describeCost (env : Env) (image_data : Bytes) : Nat :=
  if image_data.isEmpty then 0
  else
    match env.openImage image_data with
    | Except.error _ => 0
    | Except.ok _ => 1

/-- The string process_image_data returns for an inner outcome: the
description on success, the catch-all marker on a raised exception. -/
def renderDescribe : Except String String → String
  | Except.ok d => d
  | Except.error m => "Error: Failed to process image - " ++ m

/-- Every value stored in the cache is None (true of every reachable
state, since the memoized body returns None and the fill is a no-op). -/
def stateAllNone (s : CacheState) : Prop :=
  ∀ e ∈ s, e.2 = none

instance (s : CacheState) : Decidable (stateAllNone s) := by
  unfold stateAllNone
  infer_instance

/-- Abstract decoded video frame (a cv2 BGR pixel array); the claims never
inspect pixel content, so frames are identified by an opaque tag. -/
abbrev RawFrame := Nat

/-- External collaborators of the video path, at their interface boundary:
cv2.VideoCapture (none when isOpened() is false, otherwise the ordered
sequence of frames that successive video.read() calls yield) and the
BGR-to-RGB conversion plus JPEG encoding applied to each sampled frame. -/
structure VideoEnv where
  openVideo : Bytes → Option (List RawFrame)
  encodeFrame : RawFrame → Bytes

/-- Source lines 124-133: the while-loop of extract_frames_from_video,
with the running decode-position counter `frame_count` starting at c;
a frame is emitted exactly when the counter is divisible by the
interval. -/
def extract_loop (venv : VideoEnv) (frame_interval : Nat) :
    List RawFrame → Nat → List Bytes
  | [], _ => []
  | f :: rest, c =>
    if c % frame_interval == 0 then
      venv.encodeFrame f :: extract_loop venv frame_interval rest (c + 1)
    else
      extract_loop venv frame_interval rest (c + 1)

/-- Source lines 111-148: extract_frames_from_video. A capture that fails
to open raises, which the except-block rewraps into
"Failed to extract frames: ..."; otherwise the loop's emissions are
returned. (The temp-file bookkeeping has no bearing on the result.) -/
def extract_frames_from_video (venv : VideoEnv) (video_data : Bytes)
    (frame_interval : Nat) : Except String (List Bytes) :=
  match venv.openVideo video_data with
  | none => Except.error "Failed to extract frames: Failed to open video file"
  | some decoded => Except.ok (extract_loop venv frame_interval decoded 0)

/-- Source line 111: the Python default value of frame_interval; the
/process-video handler calls extract_frames_from_video without an
explicit interval, so this value is always used there. -/
def defaultFrameInterval : Nat := 30

/-- One element of the /process-video response: source lines 193-197.
The Python timestamp is `i * 1.0`; for these integer values the float is
exact, so it is modelled as the natural number i * 1. -/
structure FrameEntry where
  frame : Nat
  timestamp : Nat
  description : String
deriving DecidableEq, Inhabited

/-- Outcome of the /process-video handler: the descriptions list on
success, or a JSONResponse with an HTTP status and an error message. -/
inductive VideoResponse where
  | ok (descriptions : List FrameEntry)
  | err (status : Nat) (message : String)
deriving DecidableEq

/-- Outcome of the /process-image handler: the recognized_text payload on
success, or a JSONResponse with an HTTP status and an error message. -/
inductive ImageResponse where
  | ok (recognized_text : String)
  | err (status : Nat) (message : String)
deriving DecidableEq

/-- Source lines 190-197: the per-frame loop of the /process-video
handler — `for i, frame_data in enumerate(frames)`, calling
process_image_data on each frame (threading the process-wide cache) and
appending {frame: i, timestamp: i * 1.0, description}. -/
def describe_frames (env : Env) :
    CacheState → List Bytes → Nat → List FrameEntry × CacheState
  | s, [], _ => ([], s)
  | s, frame_data :: rest, i =>
    ({ frame := i, timestamp := i * 1,
       description := (process_image_data env s frame_data).1 }
      :: (describe_frames env (process_image_data env s frame_data).2.1
            rest (i + 1)).1,
     (describe_frames env (process_image_data env s frame_data).2.1
        rest (i + 1)).2)

/-- Python `s.startswith(pre)`, over the character lists. -/
def strStartsWith (s pre : String) : Bool :=
  pre.data.isPrefixOf s.data

/-- Python `s.endswith(suf)`, over the character lists. -/
def strEndsWith (s suf : String) : Bool :=
  suf.data.reverse.isPrefixOf s.data.reverse

/-- Python `s.lower()`, over the character lists. -/
def strToLower (s : String) : String :=
  String.mk (s.data.map Char.toLower)

/-- Source line 182: the is_video test of the /process-video handler. -/
def is_video_file (content_type filename : String) : Bool :=
  strStartsWith content_type "video/" ||
    (strEndsWith (strToLower filename) ".mp4" ||
      strEndsWith (strToLower filename) ".mov" ||
      strEndsWith (strToLower filename) ".avi")

/-- Source lines 174-202: the /process-video handler. Empty body → 400;
non-video type → 400; a raised extraction error → the catch-all 500;
no frames extracted → 400; otherwise the accumulated per-frame
descriptions. -/
def process_video (env : Env) (venv : VideoEnv) (s : CacheState)
    (video_data : Bytes) (content_type filename : String) :
    VideoResponse × CacheState :=
  if video_data.isEmpty then (VideoResponse.err 400 "Empty file received", s)
  else if !(is_video_file content_type filename) then
    (VideoResponse.err 400 ("Invalid file type: " ++ content_type), s)
  else
    match extract_frames_from_video venv video_data defaultFrameInterval with
    | Except.error m => (VideoResponse.err 500 m, s)
    | Except.ok frames =>
      if frames.isEmpty then (VideoResponse.err 400 "No frames extracted", s)
      else
        (VideoResponse.ok (describe_frames env s frames 0).1,
          (describe_frames env s frames 0).2)

/-- The /process-video handler generalized with an explicit sampling
interval. This definition follows the spec's `describeVideo(MediaBlob,
interval)` contract and exists only to state that the actual endpoint
fixes the interval at its default: the endpoint offers no way to pass
one. -/
def process_video_with_interval (env : Env) (venv : VideoEnv)
    (s : CacheState) (video_data : Bytes) (content_type filename : String)
    (frame_interval : Nat) : VideoResponse × CacheState :=
  if video_data.isEmpty then (VideoResponse.err 400 "Empty file received", s)
  else if !(is_video_file content_type filename) then
    (VideoResponse.err 400 ("Invalid file type: " ++ content_type), s)
  else
    match extract_frames_from_video venv video_data frame_interval with
    | Except.error m => (VideoResponse.err 500 m, s)
    | Except.ok frames =>
      if frames.isEmpty then (VideoResponse.err 400 "No frames extracted", s)
      else
        (VideoResponse.ok (describe_frames env s frames 0).1,
          (describe_frames env s frames 0).2)

/-- Source lines 154-172: the /process-image handler — empty body → 400,
unsupported content type → 400, otherwise the process_image_data
result as recognized_text. -/
def process_image (env : Env) (s : CacheState) (image_data : Bytes)
    (content_type : String) : ImageResponse × CacheState :=
  if image_data.isEmpty then (ImageResponse.err 400 "Empty file received", s)
  else if !(content_type == "image/jpeg" || content_type == "image/png") then
    (ImageResponse.err 400 ("Unsupported file type: " ++ content_type), s)
  else
    (ImageResponse.ok (process_image_data env s image_data).1,
      (process_image_data env s image_data).2.1)

/-- Position-tagged copy of a list: the pairs `enumerate(l)` yields in
Python, with positions starting at c. -/
def enumFromL {α : Type} : Nat → List α → List (Nat × α)
  | _, [] => []
  | c, a :: l => (c, a) :: enumFromL (c + 1) l

/-- Running a sequence of lookups against the cache, as repeated calls of
the wrapped get_cached_description (the only operation that ever mutates
the lru_cache). -/
def cache_run (s : CacheState) (keys : List String) : CacheState :=
  keys.foldl (fun st k => (get_cached_description st k).2) s

/-- The last n elements of a list. -/
def lastN {α : Type} (n : Nat) (l : List α) : List α :=
  l.drop (l.length - n)

/-- Stub collaborator with a deterministic generator that always succeeds,
used for concrete runs: decoding succeeds on any non-empty byte string. -/
def stubEnv : Env :=
  { md5hex := fun b => toString b
    openImage := fun b =>
      if b.isEmpty then Except.error "cannot identify image file"
      else Except.ok { pix := [] }
    resizeLanczos := fun i => i
    generate := fun _ => Except.ok "a small test scene" }

/-- Stub collaborator for which the byte string [9] (and the empty one)
fails to decode, modelling a corrupted frame. -/
def stubEnvFail : Env :=
  { md5hex := fun b => toString b
    openImage := fun b =>
      if b.isEmpty || b == [9] then Except.error "cannot identify image file"
      else Except.ok { pix := [] }
    resizeLanczos := fun i => i
    generate := fun _ => Except.ok "a frame" }

/-- Stub video collaborator: any non-empty byte string opens to a
100-frame video; each sampled frame n encodes to the byte string [n]. -/
def stubVEnv : VideoEnv :=
  { openVideo := fun vd => if vd.isEmpty then none else some (List.range 100)
    encodeFrame := fun n => [n] }

/-- Stub video collaborator whose captures open but decode zero frames. -/
def stubVEnvEmpty : VideoEnv :=
  { openVideo := fun _ => some []
    encodeFrame := fun n => [n] }

/-- The lru_cache size/uniqueness invariant: at most lruMaxsize entries and
at most one entry per key. -/
def cacheInv (s : CacheState) : Prop :=
  s.length ≤ lruMaxsize ∧ (s.map Prod.fst).Nodup

theorem lastN_of_length_le {α : Type} (n : Nat) (l : List α)
    (h : l.length ≤ n) : lastN n l = l := by
  unfold lastN
  rw [Nat.sub_eq_zero_of_le h, List.drop_zero]

theorem lastN_cons_of_le {α : Type} (n : Nat) (x : α) (l : List α)
    (h : n ≤ l.length) : lastN n (x :: l) = lastN n l := by
  unfold lastN
  have hc : (x :: l).length - n = (l.length - n) + 1 := by
    simp only [List.length_cons]
    omega
  rw [hc, List.drop_succ_cons]

theorem enumFromL_length {α : Type} (l : List α) :
    ∀ c : Nat, (enumFromL c l).length = l.length := by
  induction l with
  | nil => intro c; rfl
  | cons a l ih => intro c; simp [enumFromL, ih]

theorem enumFromL_getElem? {α : Type} (l : List α) :
    ∀ (c i : Nat), (enumFromL c l)[i]? = (l[i]?).map (fun a => (c + i, a)) := by
  induction l with
  | nil => intro c i; simp [enumFromL]
  | cons a l ih =>
    intro c i
    cases i with
    | zero => simp [enumFromL]
    | succ i =>
      simp only [enumFromL, List.getElem?_cons_succ, ih (c + 1) i]
      cases l[i]? with
      | none => rfl
      | some b => simp; omega

theorem enumFromL_map_fst {α β : Type} (g : Nat → β) (l : List α) :
    ∀ c : Nat, (enumFromL c l).map (fun p => g p.1)
      = (List.range l.length).map (fun j => g (c + j)) := by
  induction l with
  | nil => intro c; rfl
  | cons a l ih =>
    intro c
    simp only [enumFromL, List.map_cons, List.length_cons,
      List.range_succ_eq_map, List.map_map, ih (c + 1)]
    refine congrArg₂ List.cons (congrArg g (by omega)) ?_
    refine List.map_congr_left ?_
    intro j _
    exact congrArg g (by omega)

theorem find?_eq_none_of_disjoint (s : CacheState) (k : String)
    (h : ∀ e ∈ s, e.1 ≠ k) : s.find? (fun e => e.1 == k) = none := by
  refine List.find?_eq_none.mpr ?_
  intro e he
  simpa using h e he

/-- On a hit, the state after a get_cached_description call is a
permutation of the state before (the found entry moved to the
most-recent end). -/
theorem get_cached_description_hit_perm (s : CacheState) (k : String)
    (e : String × Option String) (hnd : (s.map Prod.fst).Nodup)
    (hf : s.find? (fun x => x.1 == k) = some e) :
    List.Perm (get_cached_description s k).2 s := by
  have he : e ∈ s := List.mem_of_find?_eq_some hf
  have hpe : (e.1 == k) = true := List.find?_some (p := fun x : String × Option String => x.1 == k) hf
  obtain ⟨a, l1, l2, hl1, hpa, hsplit, herase⟩ :=
    List.exists_of_eraseP (p := fun x : String × Option String => x.1 == k)
      he hpe
  have hae : a = e := by
    refine List.inj_on_of_nodup_map hnd ?_ he ?_
    · rw [hsplit]; exact List.mem_append_right l1 (List.mem_cons_self a l2)
    · have h1 : a.1 = k := by simpa using hpa
      have h2 : e.1 = k := by simpa using hpe
      rw [h1, h2]
  have hstep : (get_cached_description s k).2
      = s.eraseP (fun x => x.1 == k) ++ [e] := by
    unfold get_cached_description
    rw [hf]
  subst hae
  rw [hstep, herase, hsplit]
  have p1 : List.Perm ((l1 ++ l2) ++ [a]) ([a] ++ (l1 ++ l2)) :=
    List.perm_append_comm
  have p2 : List.Perm (l1 ++ a :: l2) (a :: (l1 ++ l2)) := List.perm_middle
  exact p1.trans p2.symm

/-- On a miss, the new state is the old one (with the least recently used
entry dropped when at capacity) plus the fresh key at the most-recent
end. -/
theorem get_cached_description_miss (s : CacheState) (k : String)
    (hf : s.find? (fun x => x.1 == k) = none) :
    (get_cached_description s k).2
      = (if lruMaxsize ≤ s.length then s.drop 1 else s)
          ++ [(k, (none : Option String))]
    ∧ (get_cached_description s k).1 = none := by
  unfold get_cached_description
  rw [hf]
  exact ⟨rfl, rfl⟩

/-- One cache call preserves the size bound and key uniqueness. -/
theorem get_cached_description_inv (s : CacheState) (k : String)
    (h : cacheInv s) : cacheInv (get_cached_description s k).2 := by
  obtain ⟨hlen, hnd⟩ := h
  cases hf : s.find? (fun x => x.1 == k) with
  | some e =>
    have hperm := get_cached_description_hit_perm s k e hnd hf
    exact ⟨hperm.length_eq ▸ hlen, ((hperm.map Prod.fst).nodup_iff).mpr hnd⟩
  | none =>
    obtain ⟨hs, -⟩ := get_cached_description_miss s k hf
    have hfresh : ∀ e ∈ s, e.1 ≠ k := by
      intro e he
      have := List.find?_eq_none.mp hf e he
      simpa using this
    rw [hs]
    have hsub : List.Sublist (if lruMaxsize ≤ s.length then s.drop 1 else s)
        s := by
      by_cases hc : lruMaxsize ≤ s.length
      · simpa [hc] using List.drop_sublist 1 s
      · simp [hc]
    constructor
    · rw [List.length_append]
      by_cases hc : lruMaxsize ≤ s.length
      · simp only [hc, if_true, List.length_drop, List.length_singleton]
        have : 0 < lruMaxsize := by decide
        omega
      · simp only [hc, if_false]
        simp only [List.length_singleton]
        omega
    · rw [List.map_append, List.nodup_append]
      refine ⟨(hsub.map Prod.fst).nodup hnd, by simp, ?_⟩
      intro x hx
      simp only [List.map_cons, List.map_nil, List.mem_singleton]
      obtain ⟨e, he, rfl⟩ := List.mem_map.mp hx
      exact hfresh e (hsub.subset he)

/-- One cache call preserves all-values-None. -/
theorem get_cached_description_allNone (s : CacheState) (k : String)
    (h : stateAllNone s) : stateAllNone (get_cached_description s k).2 := by
  intro e he
  unfold get_cached_description at he
  cases hf : s.find? (fun x => x.1 == k) with
  | some x =>
    rw [hf] at he
    simp only at he
    rcases List.mem_append.mp he with h1 | h2
    · exact h e ((List.eraseP_sublist s).subset h1)
    · rw [List.mem_singleton.mp h2]
      exact h x (List.mem_of_find?_eq_some hf)
  | none =>
    rw [hf] at he
    simp only [get_cached_description_fn] at he
    rcases List.mem_append.mp he with h1 | h2
    · by_cases hc : lruMaxsize ≤ s.length
      · rw [if_pos hc] at h1
        exact h e ((List.drop_sublist 1 s).subset h1)
      · rw [if_neg hc] at h1
        exact h e h1
    · rw [List.mem_singleton.mp h2]

/-- Under all-values-None, a cache call always reports a miss value. -/
theorem get_cached_description_fst (s : CacheState) (k : String)
    (h : stateAllNone s) : (get_cached_description s k).1 = none := by
  unfold get_cached_description
  cases hf : s.find? (fun x => x.1 == k) with
  | some x => exact h x (List.mem_of_find?_eq_some hf)
  | none => rfl

theorem cache_run_cons (s : CacheState) (k : String) (ks : List String) :
    cache_run s (k :: ks) = cache_run (get_cached_description s k).2 ks :=
  rfl

/-- Any sequence of cache calls preserves the size bound and key
uniqueness. -/
theorem cache_run_inv (ks : List String) :
    ∀ s : CacheState, cacheInv s → cacheInv (cache_run s ks) := by
  induction ks with
  | nil => intro s h; exact h
  | cons k ks ih =>
    intro s h
    rw [cache_run_cons]
    exact ih _ (get_cached_description_inv s k h)

/-- Looking up a sequence of fresh, pairwise-distinct keys appends them in
order, keeping only the last lruMaxsize entries. -/
theorem cache_run_disjoint (ks : List String) :
    ∀ s : CacheState, s.length ≤ lruMaxsize →
      (∀ k ∈ ks, ∀ e ∈ s, e.1 ≠ k) → ks.Nodup →
      cache_run s ks
        = lastN lruMaxsize (s ++ ks.map (fun k => (k, (none : Option String)))) := by
  induction ks with
  | nil =>
    intro s hlen _ _
    simp only [List.map_nil, List.append_nil]
    exact (lastN_of_length_le lruMaxsize s hlen).symm
  | cons k ks ih =>
    intro s hlen hdisj hnd
    have hf : s.find? (fun x => x.1 == k) = none :=
      find?_eq_none_of_disjoint s k
        (fun e he => hdisj k (List.mem_cons_self k ks) e he)
    obtain ⟨hs, -⟩ := get_cached_description_miss s k hf
    rw [cache_run_cons, hs]
    have hknotks : k ∉ ks := (List.nodup_cons.mp hnd).1
    by_cases hc : lruMaxsize ≤ s.length
    · have hslen : s.length = lruMaxsize := Nat.le_antisymm hlen hc
      rw [if_pos hc]
      have hrec := ih (s.drop 1 ++ [(k, (none : Option String))])
        (by
          rw [List.length_append, List.length_drop, List.length_singleton]
          have : 0 < lruMaxsize := by decide
          omega)
        (by
          intro k2 hk2 e he
          rcases List.mem_append.mp he with h1 | h2
          · exact hdisj k2 (List.mem_cons_of_mem k hk2) e
              ((List.drop_sublist 1 s).subset h1)
          · rw [List.mem_singleton.mp h2]
            intro hkk
            simp only at hkk
            exact hknotks (hkk ▸ hk2))
        (List.nodup_cons.mp hnd).2
      rw [hrec]
      have hsne : s ≠ [] := by
        intro hnil
        rw [hnil] at hslen
        simp [lruMaxsize] at hslen
      have hshape : s = s.head hsne :: s.tail := (List.head_cons_tail s hsne).symm
      simp only [List.map_cons]
      conv_rhs => rw [hshape, List.cons_append]
      rw [lastN_cons_of_le]
      · rw [List.drop_one, List.append_assoc, List.singleton_append]
      · rw [List.length_append, List.length_tail, hslen, List.length_cons]
        have h1 : 0 < lruMaxsize := by decide
        omega
    · rw [if_neg hc]
      have hrec := ih (s ++ [(k, (none : Option String))])
        (by
          rw [List.length_append, List.length_singleton]
          omega)
        (by
          intro k2 hk2 e he
          rcases List.mem_append.mp he with h1 | h2
          · exact hdisj k2 (List.mem_cons_of_mem k hk2) e h1
          · rw [List.mem_singleton.mp h2]
            intro hkk
            simp only at hkk
            exact hknotks (hkk ▸ hk2))
        (List.nodup_cons.mp hnd).2
      rw [hrec, List.append_assoc]
      simp only [List.map_cons, List.singleton_append]

/-- From an all-None cache state, one process_image_data try-block run
computes exactly describeResult, performs describeCost inference calls,
and leaves an all-None state. -/
theorem process_image_try_eq (env : Env) (s : CacheState) (image_data : Bytes)
    (h : stateAllNone s) :
    (process_image_try env s image_data).raw = describeResult env image_data
    ∧ (process_image_try env s image_data).infCalls
        = describeCost env image_data
    ∧ stateAllNone (process_image_try env s image_data).state := by
  cases image_data with
  | nil => exact ⟨rfl, rfl, h⟩
  | cons b bs =>
    have hfst := get_cached_description_fst s (hash_image env (b :: bs)) h
    have hsnd := get_cached_description_allNone s (hash_image env (b :: bs)) h
    have hstep : process_image_try env s (b :: bs)
        = process_image_miss env
            (get_cached_description s (hash_image env (b :: bs))).2
            (hash_image env (b :: bs)) (b :: bs) := by
      unfold process_image_try
      rw [hfst]
      rfl
    rw [hstep]
    unfold process_image_miss describeResult describeCost
    cases ho : env.openImage (b :: bs) with
    | error m => exact ⟨rfl, rfl, hsnd⟩
    | ok image0 =>
      dsimp only
      cases hg : env.generate (preprocess_image env image0) with
      | error m => exact ⟨rfl, rfl, hsnd⟩
      | ok output => exact ⟨rfl, rfl, hsnd⟩

/-- From an all-None cache state, process_image_data returns the rendering
of describeResult, counts describeCost inference calls, and leaves an
all-None state. -/
theorem process_image_data_eq (env : Env) (s : CacheState)
    (image_data : Bytes) (h : stateAllNone s) :
    (process_image_data env s image_data).1
        = renderDescribe (describeResult env image_data)
    ∧ (process_image_data env s image_data).2.2
        = describeCost env image_data
    ∧ stateAllNone (process_image_data env s image_data).2.1 := by
  obtain ⟨h1, h2, h3⟩ := process_image_try_eq env s image_data h
  refine ⟨?_, h2, h3⟩
  show (match (process_image_try env s image_data).raw with
        | Except.ok d => d
        | Except.error m => "Error: Failed to process image - " ++ m)
      = renderDescribe (describeResult env image_data)
  rw [h1]
  cases describeResult env image_data with
  | error m => rfl
  | ok d => rfl

/-- Shape of the per-frame loop output, independent of the cache and the
collaborators: entry i carries frame index i and timestamp i * 1. -/
theorem describe_frames_shape (env : Env) (frames : List Bytes) :
    ∀ (s : CacheState) (i0 : Nat),
      (describe_frames env s frames i0).1.map (fun e => (e.frame, e.timestamp))
        = (enumFromL i0 frames).map (fun p => (p.1, p.1 * 1)) := by
  induction frames with
  | nil => intro s i0; rfl
  | cons fd rest ih =>
    intro s i0
    simp only [describe_frames, enumFromL, List.map_cons]
    rw [ih]

/-- From an all-None cache state, the per-frame loop output is the
position-tagged list of per-frame describe results, and the final cache
state is again all-None. -/
theorem describe_frames_eq (env : Env) (frames : List Bytes) :
    ∀ (s : CacheState) (i0 : Nat), stateAllNone s →
      (describe_frames env s frames i0).1
        = (enumFromL i0 frames).map (fun p =>
            { frame := p.1, timestamp := p.1 * 1,
              description := renderDescribe (describeResult env p.2) })
      ∧ stateAllNone (describe_frames env s frames i0).2 := by
  induction frames with
  | nil => intro s i0 h; exact ⟨rfl, h⟩
  | cons fd rest ih =>
    intro s i0 h
    obtain ⟨hv, -, hs⟩ := process_image_data_eq env s fd h
    obtain ⟨ihv, ihs⟩ := ih (process_image_data env s fd).2.1 (i0 + 1) hs
    simp only [describe_frames, enumFromL, List.map_cons]
    exact ⟨by rw [hv, ihv], ihs⟩

/-- The sampling loop emits exactly the encodings of the frames whose
decode position is divisible by the interval, in decode order. -/
theorem extract_loop_eq (venv : VideoEnv) (interval : Nat)
    (frames : List RawFrame) :
    ∀ c : Nat,
      extract_loop venv interval frames c
        = ((List.range frames.length).filter
            (fun j => (c + j) % interval == 0)).map
            (fun j => venv.encodeFrame frames[j]!) := by
  induction frames with
  | nil => intro c; rfl
  | cons f rest ih =>
    intro c
    have hfc : ((fun j => (c + j) % interval == 0) ∘ Nat.succ)
        = fun j => ((c + 1) + j) % interval == 0 := by
      funext j
      show ((c + (j + 1)) % interval == 0) = (((c + 1) + j) % interval == 0)
      rw [show c + (j + 1) = (c + 1) + j by omega]
    have hcomp : ((fun j => venv.encodeFrame (f :: rest)[j]!) ∘ Nat.succ)
        = fun j => venv.encodeFrame rest[j]! := by
      funext j
      show venv.encodeFrame (f :: rest)[j + 1]! = venv.encodeFrame rest[j]!
      rw [List.getElem!_cons_succ]
    simp only [extract_loop, List.length_cons, List.range_succ_eq_map,
      List.filter_cons, List.filter_map, hfc]
    by_cases hc : c % interval = 0
    · have hc0 : ((c + 0) % interval == 0) = true := by
        simp [hc]
      have hc1 : ((c % interval == 0) = true) := by simpa using hc
      rw [hc0, if_pos hc1, if_pos rfl]
      rw [List.map_cons, List.map_map, hcomp, List.getElem!_cons_zero,
        ih (c + 1)]
    · have hc0 : ((c + 0) % interval == 0) = false := by
        simp [hc]
      have hc1 : ¬ ((c % interval == 0) = true) := by simpa using hc
      have hc2 : ¬ ((false : Bool) = true) := by simp
      rw [hc0, if_neg hc1, if_neg hc2]
      rw [List.map_map, hcomp, ih (c + 1)]

/-- Helper for reading the descriptions out of a video response. -/
def videoEntriesOf : VideoResponse → List FrameEntry
  | VideoResponse.ok es => es
  | VideoResponse.err _ _ => []

/-- C1 (code bug): calling process_image_data twice on identical non-empty
image bytes performs TWO inference invocations, not one: the second call
is a cache miss again. The cache fill on source line 103 writes into the
fresh dictionary returned by cache_parameters() (cache_parameters_store is
the identity on the cache), so after the first call the cache still maps
the fingerprint to None (fourth conjunct) and the `if cached_result:` test
of the second call fails. Both calls do return the identical description
(first conjunct), since decoding is deterministic (do_sample=False). The
spec states the second call is a cache hit with exactly one inference
invocation; design note 9 of the spec records the cache-fill misuse as a
bug of this reference implementation. -/
theorem c1_cache_fill_is_noop :
    (process_image_data stubEnv [] [1, 2, 3]).1
        = (process_image_data stubEnv
            (process_image_data stubEnv [] [1, 2, 3]).2.1 [1, 2, 3]).1
    ∧ (process_image_data stubEnv [] [1, 2, 3]).2.2
        + (process_image_data stubEnv
            (process_image_data stubEnv [] [1, 2, 3]).2.1 [1, 2, 3]).2.2 = 2
    ∧ ¬ ((process_image_data stubEnv [] [1, 2, 3]).2.2
        + (process_image_data stubEnv
            (process_image_data stubEnv [] [1, 2, 3]).2.1 [1, 2, 3]).2.2 = 1)
    ∧ (process_image_data stubEnv [] [1, 2, 3]).2.1
        = [(hash_image stubEnv [1, 2, 3], none)] := by
  decide

/-- C2 counterexample: for a decodable 100-frame video processed through
the /process-video endpoint (sampling interval = the fixed default 30),
the entry at output index 1 has timestamp 1, not 1 * 30 = 30: the source
computes i * 1.0 (line 195), not index times interval. -/
theorem c2_timestamp_counterexample :
    (videoEntriesOf
        (process_video stubEnv stubVEnv [] [1] "video/mp4" "clip.mp4").1).length
      = 4
    ∧ (videoEntriesOf
        (process_video stubEnv stubVEnv [] [1] "video/mp4" "clip.mp4").1)[1]!.frame
      = 1
    ∧ (videoEntriesOf
        (process_video stubEnv stubVEnv [] [1] "video/mp4" "clip.mp4").1)[1]!.timestamp
      = 1
    ∧ ¬ (videoEntriesOf
        (process_video stubEnv stubVEnv [] [1] "video/mp4" "clip.mp4").1)[1]!.timestamp
      = 1 * 30 := by
  decide

/-- C2 amended: every element of the per-frame result sequence has
timestamp equal to its frame index times one (i * 1.0 in the source) —
the index itself, independent of the sampling interval — and the frame
indices are 0, 1, 2, ... in emission order. -/
theorem c2_timestamp_eq_index (env : Env) (s : CacheState)
    (frames : List Bytes) :
    ((describe_frames env s frames 0).1).map (fun e => (e.frame, e.timestamp))
      = (List.range frames.length).map (fun i => (i, i * 1)) := by
  rw [describe_frames_shape env frames s 0]
  rw [show (fun p : Nat × Bytes => (p.1, p.1 * 1))
      = (fun p : Nat × Bytes => ((fun n => (n, n * 1)) p.1)) from rfl]
  rw [enumFromL_map_fst (fun n => (n, n * 1)) frames 0]
  simp only [Nat.zero_add]

/-- C7: the single-image operation validates non-emptiness. On empty bytes
the try-block raises ValueError("Image data is empty") — the source's
EmptyInputError — no inference is invoked, and the call surfaces the
error marker rather than a normal description; the /process-image
handler likewise rejects an empty body with status 400. -/
theorem c7_empty_input_fails (env : Env) (s : CacheState) (ct : String) :
    (process_image_try env s []).raw = Except.error "Image data is empty"
    ∧ (process_image_data env s []).1
        = "Error: Failed to process image - Image data is empty"
    ∧ (process_image_try env s []).infCalls = 0
    ∧ process_image env s [] ct
        = (ImageResponse.err 400 "Empty file received", s) :=
  ⟨rfl, rfl, rfl, rfl⟩

/-- C9: process_image_data is total at its interface — for every input it
returns a string, which is either the successfully computed description
(first disjunct) or, when the try-block raised an exception with message
m, the error marker "Error: Failed to process image - " followed by m. -/
theorem c9_total_interface (env : Env) (s : CacheState) (image_data : Bytes) :
    (process_image_try env s image_data).raw
        = Except.ok ((process_image_data env s image_data).1)
    ∨ ∃ m, (process_image_try env s image_data).raw = Except.error m
        ∧ (process_image_data env s image_data).1
            = "Error: Failed to process image - " ++ m := by
  cases hr : (process_image_try env s image_data).raw with
  | ok d =>
    left
    show Except.ok d
        = Except.ok (match (process_image_try env s image_data).raw with
          | Except.ok d => d
          | Except.error m => "Error: Failed to process image - " ++ m)
    rw [hr]
  | error m =>
    right
    refine ⟨m, rfl, ?_⟩
    show (match (process_image_try env s image_data).raw with
          | Except.ok d => d
          | Except.error m => "Error: Failed to process image - " ++ m)
        = "Error: Failed to process image - " ++ m
    rw [hr]

/-- C10: the /process-video endpoint always runs the sampler with the
fixed default interval: it equals the interval-generalized handler
applied at defaultFrameInterval, and defaultFrameInterval is 30. The
endpoint's interface (a file upload alone) offers no way to change it. -/
theorem c10_fixed_default_interval :
    (∀ (env : Env) (venv : VideoEnv) (s : CacheState) (video_data : Bytes)
        (content_type filename : String),
        process_video env venv s video_data content_type filename
          = process_video_with_interval env venv s video_data content_type
              filename defaultFrameInterval)
    ∧ defaultFrameInterval = 30 :=
  ⟨fun _ _ _ _ _ _ => rfl, rfl⟩

/-- Stub video collaborator whose captures decode exactly one frame. -/
def stubVEnvShort : VideoEnv :=
  { openVideo := fun _ => some [7]
    encodeFrame := fun n => [n] }

/-- C3: the description cache holds at most one entry per fingerprint and
at most lruMaxsize = 100 entries (last conjunct, for every access
sequence); and running 101 pairwise-distinct keys against an empty cache
leaves exactly the last 100 of them, in order — the earliest-inserted key
is the one evicted. -/
theorem c3_cache_bound_eviction (keys : List String) (hnd : keys.Nodup)
    (hlen : keys.length = lruMaxsize + 1) :
    cache_run [] keys
        = (keys.drop 1).map (fun k => (k, (none : Option String)))
    ∧ (cache_run [] keys).length = lruMaxsize
    ∧ ((cache_run [] keys).map Prod.fst).Nodup
    ∧ ∀ ks : List String, (cache_run [] ks).length ≤ lruMaxsize
        ∧ ((cache_run [] ks).map Prod.fst).Nodup := by
  have hrun := cache_run_disjoint keys [] (Nat.zero_le _)
    (by intro k hk e he; exact absurd he (List.not_mem_nil e)) hnd
  rw [List.nil_append] at hrun
  have hone : keys.length - lruMaxsize = 1 := by omega
  have hlast : lastN lruMaxsize
      (keys.map (fun k => (k, (none : Option String))))
      = ((keys.map (fun k => (k, (none : Option String)))).drop 1) := by
    unfold lastN
    rw [List.length_map, hone]
  have hdrop : ((keys.map (fun k => (k, (none : Option String)))).drop 1)
      = (keys.drop 1).map (fun k => (k, (none : Option String))) :=
    (List.map_drop _ keys 1).symm
  refine ⟨by rw [hrun, hlast, hdrop], ?_, ?_, ?_⟩
  · rw [hrun, hlast, List.length_drop, List.length_map]
    omega
  · rw [hrun, hlast, hdrop, List.map_map]
    have hid : (Prod.fst ∘ fun k : String => (k, (none : Option String)))
        = id := rfl
    rw [hid, List.map_id]
    exact (List.drop_sublist 1 keys).nodup hnd
  · intro ks
    exact cache_run_inv ks [] ⟨Nat.zero_le _, List.nodup_nil⟩

theorem c3_cache_bound_eviction_witness :
    ((List.range (lruMaxsize + 1)).map
        (fun n => String.mk (List.replicate n 'a'))).Nodup
    ∧ ((List.range (lruMaxsize + 1)).map
        (fun n => String.mk (List.replicate n 'a'))).length = lruMaxsize + 1
    ∧ (cache_run [] ((List.range (lruMaxsize + 1)).map
          (fun n => String.mk (List.replicate n 'a')))
          = (((List.range (lruMaxsize + 1)).map
              (fun n => String.mk (List.replicate n 'a'))).drop 1).map
              (fun k => (k, (none : Option String)))
      ∧ (cache_run [] ((List.range (lruMaxsize + 1)).map
          (fun n => String.mk (List.replicate n 'a')))).length = lruMaxsize
      ∧ ((cache_run [] ((List.range (lruMaxsize + 1)).map
          (fun n => String.mk (List.replicate n 'a')))).map Prod.fst).Nodup
      ∧ ∀ ks : List String, (cache_run [] ks).length ≤ lruMaxsize
          ∧ ((cache_run [] ks).map Prod.fst).Nodup) := by
  have hinj : Function.Injective
      (fun n => String.mk (List.replicate n 'a')) := by
    intro a b hab
    have h2 := congrArg (fun t => t.data.length) hab
    simpa using h2
  have hnd := (List.nodup_range (lruMaxsize + 1)).map hinj
  have hlen : ((List.range (lruMaxsize + 1)).map
      (fun n => String.mk (List.replicate n 'a'))).length
      = lruMaxsize + 1 := by
    rw [List.length_map, List.length_range]
  exact ⟨hnd, hlen, c3_cache_bound_eviction _ hnd hlen⟩

/-- C4: during video processing from an all-None cache state (every
reachable state is), each output entry i carries frame index i,
timestamp i * 1 and the description computed from frame i alone; in
particular a frame j whose bytes fail to process yields the error-marker
entry at position j while every other position keeps its own frame's
description, in emission order, and no frame aborts the rest (the output
has an entry for every frame). -/
theorem c4_partial_failure_isolated (env : Env) (s : CacheState)
    (frames : List Bytes) (j : Nat) (m : String)
    (hall : stateAllNone s) (hj : j < frames.length)
    (herr : describeResult env (frames[j]!) = Except.error m) :
    (describe_frames env s frames 0).1.length = frames.length
    ∧ (∀ i, i < frames.length →
        ((describe_frames env s frames 0).1)[i]?
          = some ⟨i, i * 1, renderDescribe (describeResult env (frames[i]!))⟩)
    ∧ ((describe_frames env s frames 0).1)[j]?
        = some ⟨j, j * 1, "Error: Failed to process image - " ++ m⟩ := by
  obtain ⟨hout, -⟩ := describe_frames_eq env frames s 0 hall
  have hlen : (describe_frames env s frames 0).1.length = frames.length := by
    rw [hout, List.length_map, enumFromL_length]
  have hidx : ∀ i, i < frames.length →
      ((describe_frames env s frames 0).1)[i]?
        = some ⟨i, i * 1, renderDescribe (describeResult env (frames[i]!))⟩ := by
    intro i hi
    rw [hout, List.getElem?_map, enumFromL_getElem? frames 0 i,
      List.getElem?_eq_getElem hi, getElem!_pos frames i hi]
    simp [Nat.zero_add]
  refine ⟨hlen, hidx, ?_⟩
  rw [hidx j hj, herr]
  rfl

theorem c4_partial_failure_isolated_witness :
    stateAllNone ([] : CacheState)
    ∧ 2 < ([[1], [2], [9], [3]] : List Bytes).length
    ∧ describeResult stubEnvFail (([[1], [2], [9], [3]] : List Bytes)[2]!)
        = Except.error "cannot identify image file"
    ∧ ((describe_frames stubEnvFail [] [[1], [2], [9], [3]] 0).1.length
          = ([[1], [2], [9], [3]] : List Bytes).length
      ∧ (∀ i, i < ([[1], [2], [9], [3]] : List Bytes).length →
          ((describe_frames stubEnvFail [] [[1], [2], [9], [3]] 0).1)[i]?
            = some ⟨i, i * 1, renderDescribe (describeResult stubEnvFail
                (([[1], [2], [9], [3]] : List Bytes)[i]!))⟩)
      ∧ ((describe_frames stubEnvFail [] [[1], [2], [9], [3]] 0).1)[2]?
          = some ⟨2, 2 * 1,
              "Error: Failed to process image - cannot identify image file"⟩) := by
  have h1 : stateAllNone ([] : CacheState) := by
    intro e he
    exact absurd he (List.not_mem_nil e)
  have h2 : 2 < ([[1], [2], [9], [3]] : List Bytes).length := by decide
  have h3 : describeResult stubEnvFail (([[1], [2], [9], [3]] : List Bytes)[2]!)
      = Except.error "cannot identify image file" := by decide
  exact ⟨h1, h2, h3,
    c4_partial_failure_isolated stubEnvFail [] [[1], [2], [9], [3]] 2
      "cannot identify image file" h1 h2 h3⟩

/-- C5: a video that decodes to 100 frames, sampled with interval 30,
yields exactly 4 emitted frames, taken at decode positions 0, 30, 60 and
90, in that emission order. -/
theorem c5_sampler_100_frames (venv : VideoEnv) (video_data : Bytes)
    (frames : List RawFrame) (hopen : venv.openVideo video_data = some frames)
    (hlen : frames.length = 100) :
    extract_frames_from_video venv video_data 30
      = Except.ok [venv.encodeFrame frames[0]!, venv.encodeFrame frames[30]!,
          venv.encodeFrame frames[60]!, venv.encodeFrame frames[90]!]
    ∧ (extract_loop venv 30 frames 0).length = 4 := by
  have hloop : extract_loop venv 30 frames 0
      = [venv.encodeFrame frames[0]!, venv.encodeFrame frames[30]!,
         venv.encodeFrame frames[60]!, venv.encodeFrame frames[90]!] := by
    rw [extract_loop_eq venv 30 frames 0, hlen]
    have hfilter : (List.range 100).filter (fun j => (0 + j) % 30 == 0)
        = [0, 30, 60, 90] := by decide
    rw [hfilter]
    rfl
  constructor
  · unfold extract_frames_from_video
    rw [hopen]
    show Except.ok (extract_loop venv 30 frames 0) = _
    rw [hloop]
  · rw [hloop]
    rfl

theorem c5_sampler_100_frames_witness :
    stubVEnv.openVideo [1] = some (List.range 100)
    ∧ (List.range 100).length = 100
    ∧ (extract_frames_from_video stubVEnv [1] 30
        = Except.ok [stubVEnv.encodeFrame (List.range 100)[0]!,
            stubVEnv.encodeFrame (List.range 100)[30]!,
            stubVEnv.encodeFrame (List.range 100)[60]!,
            stubVEnv.encodeFrame (List.range 100)[90]!]
      ∧ (extract_loop stubVEnv 30 (List.range 100) 0).length = 4) := by
  have h1 : stubVEnv.openVideo [1] = some (List.range 100) := rfl
  have h2 : (List.range 100).length = 100 := by simp
  exact ⟨h1, h2, c5_sampler_100_frames stubVEnv [1] (List.range 100) h1 h2⟩

/-- C6: for a positive interval, a video that decodes to at least one but
at most interval-many frames yields exactly one emitted frame — the
first decoded one — and a video that decodes to zero frames yields the
empty sequence. -/
theorem c6_short_video_single_frame (venv : VideoEnv) (video_data : Bytes)
    (decoded : List RawFrame) (interval : Nat)
    (hopen : venv.openVideo video_data = some decoded)
    (hpos : 0 < interval) :
    (decoded ≠ [] → decoded.length ≤ interval →
      extract_frames_from_video venv video_data interval
        = Except.ok [venv.encodeFrame decoded[0]!])
    ∧ (decoded = [] →
      extract_frames_from_video venv video_data interval = Except.ok []) := by
  constructor
  · intro hne hle
    unfold extract_frames_from_video
    rw [hopen]
    show Except.ok (extract_loop venv interval decoded 0) = _
    rw [extract_loop_eq venv interval decoded 0]
    obtain ⟨mlen, hm⟩ : ∃ m, decoded.length = m + 1 := by
      cases hx : decoded.length with
      | zero => exact absurd (List.length_eq_zero.mp hx) hne
      | succ m => exact ⟨m, rfl⟩
    have hfil : (List.range decoded.length).filter
        (fun j => (0 + j) % interval == 0) = [0] := by
      rw [hm, List.range_succ_eq_map, List.filter_cons]
      have h0 : ((0 + 0) % interval == 0) = true := by simp
      rw [h0, if_pos rfl]
      have hrest : (List.map Nat.succ (List.range mlen)).filter
          (fun j => (0 + j) % interval == 0) = [] := by
        rw [List.filter_map]
        have hnil : (List.range mlen).filter
            ((fun j => (0 + j) % interval == 0) ∘ Nat.succ) = [] := by
          rw [List.filter_eq_nil_iff]
          intro a ha
          have ha2 : a < mlen := List.mem_range.mp ha
          show ¬ ((0 + (a + 1)) % interval == 0) = true
          have hlt : a + 1 < interval := by omega
          simp [Nat.mod_eq_of_lt hlt]
        rw [hnil, List.map_nil]
      rw [hrest]
    rw [hfil]
    rfl
  · intro hnil
    subst hnil
    unfold extract_frames_from_video
    rw [hopen]
    rfl

theorem c6_short_video_single_frame_witness :
    stubVEnvShort.openVideo [1] = some [7]
    ∧ 0 < 30
    ∧ ([7] : List RawFrame) ≠ []
    ∧ ([7] : List RawFrame).length ≤ 30
    ∧ extract_frames_from_video stubVEnvShort [1] 30
        = Except.ok [stubVEnvShort.encodeFrame (([7] : List RawFrame))[0]!] := by
  have h1 : stubVEnvShort.openVideo [1] = some [7] := rfl
  have h2 : 0 < 30 := by decide
  have h3 : ([7] : List RawFrame) ≠ [] := by decide
  have h4 : ([7] : List RawFrame).length ≤ 30 := by decide
  exact ⟨h1, h2, h3, h4,
    (c6_short_video_single_frame stubVEnvShort [1] [7] 30 h1 h2).1 h3 h4⟩

/-- C8: for a non-empty upload that passes the video-type test, the
/process-video handler answers with the NoFramesError response — status
400, "No frames extracted" — exactly when the frame sampler returns an
empty frame sequence (it never silently succeeds with no output; a
sampler that raises instead yields the 500 response, not this one). -/
theorem c8_noframes_iff_empty (env : Env) (venv : VideoEnv) (s : CacheState)
    (video_data : Bytes) (content_type filename : String)
    (hne : video_data ≠ [])
    (hv : is_video_file content_type filename = true) :
    (process_video env venv s video_data content_type filename).1
        = VideoResponse.err 400 "No frames extracted"
    ↔ extract_frames_from_video venv video_data defaultFrameInterval
        = Except.ok [] := by
  have hemp : video_data.isEmpty = false := by
    cases video_data with
    | nil => exact absurd rfl hne
    | cons b bs => rfl
  cases hx : extract_frames_from_video venv video_data defaultFrameInterval with
  | error m =>
    unfold process_video
    rw [hemp, hv, hx]
    simp
  | ok frames =>
    unfold process_video
    rw [hemp, hv, hx]
    by_cases hfe : frames.isEmpty
    · have hfeq : frames = [] := List.isEmpty_iff.mp hfe
      subst hfeq
      simp
    · have hfne : frames ≠ [] := by
        intro hh
        subst hh
        exact hfe rfl
      simp [hfe, hfne]

theorem c8_noframes_iff_empty_witness :
    ([1] : Bytes) ≠ []
    ∧ is_video_file "video/mp4" "clip.mp4" = true
    ∧ ((process_video stubEnv stubVEnvEmpty [] [1] "video/mp4" "clip.mp4").1
          = VideoResponse.err 400 "No frames extracted"
        ↔ extract_frames_from_video stubVEnvEmpty [1] defaultFrameInterval
          = Except.ok []) := by
  have h1 : ([1] : Bytes) ≠ [] := by decide
  have h2 : is_video_file "video/mp4" "clip.mp4" = true := by decide
  exact ⟨h1, h2, c8_noframes_iff_empty stubEnv stubVEnvEmpty [] [1]
    "video/mp4" "clip.mp4" h1 h2⟩

end LiveFeedAI
